import Mathlib

/-
  Verification development for the gg_flash_mgr record-log engine
  (src/gg_flash_mgr.c).  The engine keeps a flat data file of fixed-size
  records plus a small metadata ledger file, behind a global state
  `g_state` with operations append / read_chunk / delete / cleanup /
  format / get_status, and internal helpers load_metadata /
  save_metadata / perform_auto_cleanup.

  Modelling conventions:
  * Files are modelled at record granularity: the data file is an
    `Option (List flash_mgr_entry_t)` (`none` = file absent), since every
    data-file I/O in the source moves whole records (fwrite/fread of
    sizeof(flash_mgr_entry_t), fseek by multiples of it).  Short writes
    and short reads are modelled all-or-nothing at record granularity.
  * Fallible I/O calls (fopen, fseek, the chunked copy, remove, rename)
    are driven by explicit Boolean outcome flags passed to the operation
    (`append_io_t`, `delete_io_t`); the all-true flags give the happy
    path actually reached when the underlying file API succeeds.
  * The uint32 ledger counters are modelled as Nat.  Counter wrap-around
    is unreachable for them in the source configuration space: each
    append stores sizeof(flash_mgr_entry_t) = 16 bytes into a filesystem
    of at most 16 MiB (FLASH_MGR_MAX_DATA_SIZE and the 16 MiB partition),
    so fewer than 2^21 records ever coexist and appends fail with an I/O
    error long before any counter reaches 2^32.  Where the uint32
    truncation is itself the behaviour under scrutiny
    (flash_mgr_get_status, claim C10) the arithmetic is taken modulo
    2^32 explicitly, exactly as the C expressions compute it.
  * The float-valued auto-cleanup trigger (usage_ratio >= threshold) and
    the float target computation in perform_auto_cleanup are binary32
    arithmetic in the source; they are abstracted as an oracle argument
    `Option Nat` to the append operation (`none` = threshold not
    crossed, `some t` = cleanup triggered with computed target t).  All
    invariant theorems quantify over every oracle value, hence cover
    every possible float outcome.
  * Two ghost fields instrument the state without altering behaviour:
    `history` records every entry ever appended (to express order
    preservation), and `saves` counts save_metadata calls (to express
    that a no-op performs no ledger save).
-/

namespace GGFlashMgr

/-- esp_err_t return codes used by gg_flash_mgr.c. -/
inductive esp_err_t where
  | ESP_OK
  | ESP_FAIL
  | ESP_ERR_INVALID_STATE
  | ESP_ERR_INVALID_ARG
  | ESP_ERR_NO_MEM
  deriving DecidableEq

/-- One log record (flash_mgr_entry_t, packed struct of
    4 + 4 + 1 + 1 + 4 + 2 bytes; the two reserved bytes are always
    written as zero and carry no information). -/
structure flash_mgr_entry_t where
  timestamp : Nat
  id : Nat
  type : Nat
  unit : Nat
  value_x1000 : Int
  deriving DecidableEq

/-- sizeof(flash_mgr_entry_t): the packed layout is 16 bytes. -/
def entrySize : Nat := 16

/-- The metadata ledger (flash_mgr_metadata_t). -/
structure flash_mgr_metadata_t where
  total_entries : Nat
  active_entries : Nat
  next_id : Nat
  deleted_from_start : Nat
  magic : Nat
  deriving DecidableEq

/-- FLASH_MGR_METADATA_MAGIC sentinel. -/
def FLASH_MGR_METADATA_MAGIC : Nat := 0xFEEDC0DE

/-- Freshly initialized metadata: memset to zero, then magic set. -/
def freshMeta : flash_mgr_metadata_t :=
  { total_entries := 0, active_entries := 0, next_id := 0,
    deleted_from_start := 0, magic := FLASH_MGR_METADATA_MAGIC }

/-- 2^32 = 4294967296, the modulus of uint32 arithmetic. -/
def U32 : Nat := 4294967296

/-- The engine configuration fields the core operations read
    (flash_mgr_config_t).  Hardware pins, file-path strings and the
    float cleanup ratios are omitted: paths are fixed names, and the
    float trigger/target is abstracted by the cleanup oracle (see the
    header comment). -/
structure flash_mgr_config_t where
  max_data_size : Nat
  chunk_buffer_size : Nat
  auto_cleanup : Bool
  deriving DecidableEq

/-- Contents of the ledger file: either too short for one whole
    flash_mgr_metadata_t (fread fails) or a whole ledger record. -/
inductive meta_file_t where
  | corrupt
  | valid (m : flash_mgr_metadata_t)
  deriving DecidableEq

/-- The engine state g_state together with the two files it owns and
    the two ghost fields (history, saves). -/
structure flash_mgr_state_t where
  config : flash_mgr_config_t
  meta : flash_mgr_metadata_t
  initialized : Bool
  dataFile : Option (List flash_mgr_entry_t)
  tempFile : Option (List flash_mgr_entry_t)
  metaFile : Option meta_file_t
  history : List flash_mgr_entry_t
  saves : Nat
  deriving DecidableEq

/-- Records physically present in the data file (absent file = no
    records). -/
def fileList (s : flash_mgr_state_t) : List flash_mgr_entry_t :=
  s.dataFile.getD []

/-- load_metadata (gg_flash_mgr.c:613-642): absent file or magic
    mismatch silently reinitializes; a short read fails (the in-RAM
    struct is then partially clobbered, modelled as `none`). -/
def load_metadata : Option meta_file_t → esp_err_t × Option flash_mgr_metadata_t
  | none => (.ESP_OK, some freshMeta)
  | some .corrupt => (.ESP_FAIL, none)
  | some (.valid m) =>
    if m.magic ≠ FLASH_MGR_METADATA_MAGIC then (.ESP_OK, some freshMeta)
    else (.ESP_OK, some m)

/-- save_metadata (gg_flash_mgr.c:644-660), happy path: overwrites the
    ledger file wholesale.  The ghost `saves` counter records that a
    save was performed. -/
def save_metadata (s : flash_mgr_state_t) : esp_err_t × flash_mgr_state_t :=
  (.ESP_OK, { s with metaFile := some (.valid s.meta), saves := s.saves + 1 })

/-- Outcomes of the fallible I/O calls inside flash_mgr_delete:
    fseek, the chunked copy loop (fread/fwrite agreeing), remove of the
    original file, and rename of the temp file. -/
structure delete_io_t where
  seekOk : Bool
  copyOk : Bool
  removeOk : Bool
  renameOk : Bool
  deriving DecidableEq

/-- All I/O succeeding. -/
def ioAll : delete_io_t :=
  { seekOk := true, copyOk := true, removeOk := true, renameOk := true }

/-- flash_mgr_delete (gg_flash_mgr.c:313-448).  count is clamped to
    active_entries; count 0 returns at once with no I/O.  Full clear
    removes the data file (a remove failure is logged and ignored).
    Partial clear copies the surviving tail into a temp file, removes
    the original, renames the temp into place, then updates and saves
    the ledger.  On seek/copy/remove failure the temp file is removed
    and ESP_FAIL returned with nothing else changed; on rename failure
    the original file has already been removed and the temp file is
    left behind. -/
def flash_mgr_delete (io : delete_io_t) (s : flash_mgr_state_t)
    (count0 : Nat) : esp_err_t × flash_mgr_state_t :=
  if s.initialized = false then (.ESP_ERR_INVALID_STATE, s)
  else if min count0 s.meta.active_entries = 0 then (.ESP_OK, s)
  else if s.meta.active_entries - min count0 s.meta.active_entries = 0 then
    -- full clear (lines 332-342): remove whole file, zero active
    save_metadata { s with
      dataFile := if io.removeOk then none else s.dataFile,
      meta := { s.meta with
        active_entries := 0,
        deleted_from_start :=
          s.meta.deleted_from_start + min count0 s.meta.active_entries } }
  else
    match s.dataFile with
    | none => (.ESP_FAIL, s)   -- fopen(data_file, "rb") fails (line 355)
    | some file =>
      -- fopen(temp, "wb") creates the temp file (line 362); the failure
      -- exits below all net out to "temp file gone" because the partial
      -- temp is removed before returning (lines 376, 394-401, 418, 426)
      if io.seekOk = false then (.ESP_FAIL, { s with tempFile := none })
      else if io.copyOk = false ∨
          (file.drop (min count0 s.meta.active_entries)).length <
            s.meta.active_entries - min count0 s.meta.active_entries then
        (.ESP_FAIL, { s with tempFile := none })
      else if io.removeOk = false then (.ESP_FAIL, { s with tempFile := none })
      else if io.renameOk = false then
        -- lines 429-432: original already removed, temp NOT removed
        (.ESP_FAIL, { s with
          dataFile := none,
          tempFile := some
            ((file.drop (min count0 s.meta.active_entries)).take
              (s.meta.active_entries - min count0 s.meta.active_entries)) })
      else
        save_metadata { s with
          dataFile := some
            ((file.drop (min count0 s.meta.active_entries)).take
              (s.meta.active_entries - min count0 s.meta.active_entries)),
          tempFile := none,
          meta := { s.meta with
            active_entries :=
              s.meta.active_entries - min count0 s.meta.active_entries,
            deleted_from_start :=
              s.meta.deleted_from_start + min count0 s.meta.active_entries } }

/-- perform_auto_cleanup (gg_flash_mgr.c:666-679) together with its
    trigger in append (lines 247-259), with the binary32 computations
    abstracted by the oracle: `none` means the usage-ratio test did not
    fire, `some target` means it fired and the float expression
    (uint32_t)(max_entries * cleanup_target) evaluated to `target`.
    When active_entries <= target nothing happens; otherwise
    flash_mgr_delete removes the difference.  A cleanup failure is
    ignored by the caller (append continues), which discarding the
    esp_err_t models. -/
def autoCleanupStep (s : flash_mgr_state_t) (oracle : Option Nat) :
    flash_mgr_state_t :=
  if s.config.auto_cleanup then
    match oracle with
    | none => s
    | some target =>
      if s.meta.active_entries ≤ target then s
      else (flash_mgr_delete ioAll s (s.meta.active_entries - target)).2

  else s

/-- Outcomes of the fallible I/O calls inside append: fopen of the data
    file and the record fwrite. -/
structure append_io_t where
  openOk : Bool
  writeOk : Bool
  deriving DecidableEq

/-- flash_mgr_append_with_timestamp (gg_flash_mgr.c:208-272).  Note the
    source builds the entry with `.id = g_state.meta.next_id++` (line
    216) BEFORE any I/O, so next_id is incremented even on the fopen-
    and fwrite-failure exits. -/
def flash_mgr_append_with_timestamp (io : append_io_t) (oracle : Option Nat)
    (s : flash_mgr_state_t) (timestamp type unit : Nat) (value_x1000 : Int) :
    esp_err_t × flash_mgr_state_t :=
  if s.initialized = false then (.ESP_ERR_INVALID_STATE, s)
  else if io.openOk = false then
    (.ESP_FAIL, { s with meta := { s.meta with next_id := s.meta.next_id + 1 } })
  else if io.writeOk = false then
    (.ESP_FAIL, { s with meta := { s.meta with next_id := s.meta.next_id + 1 } })
  else
    save_metadata (autoCleanupStep
      { s with
        dataFile := some (fileList s ++
          [⟨timestamp, s.meta.next_id, type, unit, value_x1000⟩]),
        history := s.history ++
          [⟨timestamp, s.meta.next_id, type, unit, value_x1000⟩],
        meta := { s.meta with
          next_id := s.meta.next_id + 1,
          total_entries := s.meta.total_entries + 1,
          active_entries := s.meta.active_entries + 1 } }
      oracle)

/-- flash_mgr_read_chunk (gg_flash_mgr.c:274-311).  An uninitialized
    engine (like a null buffer) yields ESP_ERR_INVALID_ARG, not
    ESP_ERR_INVALID_STATE.  Reads min(max_entries, active_entries)
    records from the file start, stopping short at end of file
    (List.take stops at the list end the same way the fread loop
    breaks). -/
def flash_mgr_read_chunk (s : flash_mgr_state_t) (max_entries : Nat) :
    esp_err_t × List flash_mgr_entry_t :=
  if s.initialized = false then (.ESP_ERR_INVALID_ARG, [])
  else if s.meta.active_entries = 0 then (.ESP_OK, [])
  else
    match s.dataFile with
    | none => (.ESP_FAIL, [])
    | some file => (.ESP_OK, file.take (min max_entries s.meta.active_entries))

/-- flash_mgr_status_t. -/
structure flash_mgr_status_t where
  total_entries : Nat
  active_entries : Nat
  deleted_entries : Nat
  free_space_bytes : Nat
  used_space_bytes : Nat
  initialized : Bool
  deriving DecidableEq

/-- The memset-to-zero status written on the uninitialized exit. -/
def emptyStatus : flash_mgr_status_t :=
  { total_entries := 0, active_entries := 0, deleted_entries := 0,
    free_space_bytes := 0, used_space_bytes := 0, initialized := false }

/-- flash_mgr_get_status (gg_flash_mgr.c:450-469).  used_space_bytes is
    the uint32 product active_entries * sizeof(flash_mgr_entry_t) and
    free_space_bytes the uint32 difference max_data_size -
    used_space_bytes, both taken modulo 2^32 exactly as the 32-bit C
    arithmetic computes them. -/
def flash_mgr_get_status (s : flash_mgr_state_t) :
    esp_err_t × flash_mgr_status_t :=
  if s.initialized = false then (.ESP_ERR_INVALID_STATE, emptyStatus)
  else
    (.ESP_OK,
      { total_entries := s.meta.total_entries,
        active_entries := s.meta.active_entries,
        deleted_entries := s.meta.deleted_from_start,
        used_space_bytes := (s.meta.active_entries * entrySize) % U32,
        free_space_bytes :=
          (s.config.max_data_size + U32 -
            (s.meta.active_entries * entrySize) % U32) % U32,
        initialized := true })

/-- flash_mgr_cleanup (gg_flash_mgr.c:471-487): keep target_entries,
    removing the rest via flash_mgr_delete; target >= active is a
    no-op. -/
def flash_mgr_cleanup (io : delete_io_t) (s : flash_mgr_state_t)
    (target_entries : Nat) : esp_err_t × flash_mgr_state_t :=
  if s.initialized = false then (.ESP_ERR_INVALID_STATE, s)
  else if s.meta.active_entries ≤ target_entries then (.ESP_OK, s)
  else flash_mgr_delete io s (s.meta.active_entries - target_entries)

/-- flash_mgr_format (gg_flash_mgr.c:489-512): removes both files
    (results unchecked), resets the ledger to zero plus magic, saves. -/
def flash_mgr_format (s : flash_mgr_state_t) : esp_err_t × flash_mgr_state_t :=
  if s.initialized = false then (.ESP_ERR_INVALID_STATE, s)
  else save_metadata { s with dataFile := none, metaFile := none, meta := freshMeta }

/-- Happy-path operations of the engine facade, used to describe the
    reachable states.  The append oracle ranges over every possible
    outcome of the float auto-cleanup computation. -/
inductive Op where
  | reinit
  | append (timestamp type unit : Nat) (value_x1000 : Int) (oracle : Option Nat)
  | evict (count : Nat)
  | cleanup (target : Nat)
  | format

/-- One happy-path step.  `reinit` models flash_mgr_init called while
    already initialized (gg_flash_mgr.c:108-111): it returns ESP_OK and
    changes nothing. -/
def step (s : flash_mgr_state_t) : Op → flash_mgr_state_t
  | .reinit => s
  | .append t ty un v oracle =>
    (flash_mgr_append_with_timestamp ⟨true, true⟩ oracle s t ty un v).2
  | .evict c => (flash_mgr_delete ioAll s c).2
  | .cleanup t => (flash_mgr_cleanup ioAll s t).2
  | .format => (flash_mgr_format s).2

/-- State right after a successful flash_mgr_init on fresh storage:
    load_metadata found no ledger file and installed freshMeta; no data
    file exists yet. -/
def initState (cfg : flash_mgr_config_t) : flash_mgr_state_t :=
  { config := cfg, meta := freshMeta, initialized := true,
    dataFile := none, tempFile := none, metaFile := none,
    history := [], saves := 0 }

/-- The state after running a sequence of happy-path operations from a
    fresh engine. -/
def run (cfg : flash_mgr_config_t) (ops : List Op) : flash_mgr_state_t :=
  ops.foldl step (initState cfg)

/-- The reachable-state invariant: engine initialized, no temp file
    left behind, ledger counters consistent, the data file holds
    exactly active_entries records which are the most recent suffix of
    the append history, and record ids in the file are strictly
    increasing and below next_id. -/
def Inv (s : flash_mgr_state_t) : Prop :=
  s.initialized = true ∧
  s.tempFile = none ∧
  s.meta.total_entries = s.meta.active_entries + s.meta.deleted_from_start ∧
  (fileList s).length = s.meta.active_entries ∧
  s.meta.active_entries ≤ s.history.length ∧
  fileList s = s.history.drop (s.history.length - s.meta.active_entries) ∧
  (∀ e ∈ fileList s, e.id < s.meta.next_id) ∧
  (fileList s).Pairwise (fun a b => a.id < b.id)

instance (s : flash_mgr_state_t) : Decidable (Inv s) := by
  unfold Inv
  infer_instance

/-- A small valid configuration used for concrete witnesses. -/
def cfg0 : flash_mgr_config_t :=
  { max_data_size := 1024, chunk_buffer_size := 4096, auto_cleanup := false }

/-- Two concrete records used in witnesses and counterexamples. -/
def e0 : flash_mgr_entry_t := ⟨100, 0, 1, 2, 5000⟩

def e1 : flash_mgr_entry_t := ⟨101, 1, 1, 2, 6000⟩

/-- A concrete initialized state with two records, satisfying Inv. -/
def exampleS2 : flash_mgr_state_t :=
  { config := cfg0,
    meta := { total_entries := 2, active_entries := 2, next_id := 2,
              deleted_from_start := 0, magic := FLASH_MGR_METADATA_MAGIC },
    initialized := true,
    dataFile := some [e0, e1], tempFile := none,
    metaFile := some (meta_file_t.valid
      ⟨2, 2, 2, 0, FLASH_MGR_METADATA_MAGIC⟩),
    history := [e0, e1], saves := 2 }

/-- A concrete uninitialized state. -/
def uninitState0 : flash_mgr_state_t :=
  { initState cfg0 with initialized := false }

/-- A small concrete operation sequence used in witnesses. -/
def opsW : List Op :=
  [.append 1 0 0 0 none, .append 2 0 0 0 none, .evict 1]

theorem dataFile_eq_some (s : flash_mgr_state_t) (h : (fileList s).length ≠ 0) :
    s.dataFile = some (fileList s) := by
  cases hd : s.dataFile with
  | none => exact absurd (by simp [fileList, hd]) h
  | some l => simp [fileList, hd]

theorem tempFile_erase (s : flash_mgr_state_t) (h : s.tempFile = none) :
    { s with tempFile := none } = s := by
  obtain ⟨c, m, i, d, tf, mf, hi, sv⟩ := s
  simp only at h
  rw [h]

theorem inv_save (s : flash_mgr_state_t) : Inv (save_metadata s).2 ↔ Inv s :=
  Iff.rfl

theorem delete_noop (io : delete_io_t) (s : flash_mgr_state_t) (c : Nat)
    (h1 : s.initialized = true) (hc : min c s.meta.active_entries = 0) :
    flash_mgr_delete io s c = (.ESP_OK, s) := by
  simp [flash_mgr_delete, h1, hc]

theorem delete_full (io : delete_io_t) (s : flash_mgr_state_t) (c : Nat)
    (h1 : s.initialized = true) (hc : min c s.meta.active_entries ≠ 0)
    (hr : s.meta.active_entries - min c s.meta.active_entries = 0) :
    flash_mgr_delete io s c =
      save_metadata { s with
        dataFile := if io.removeOk then none else s.dataFile,
        meta := { s.meta with
          active_entries := 0,
          deleted_from_start :=
            s.meta.deleted_from_start + min c s.meta.active_entries } } := by
  simp [flash_mgr_delete, h1, hc, hr]

theorem delete_compaction (s : flash_mgr_state_t) (c : Nat)
    (file : List flash_mgr_entry_t)
    (h1 : s.initialized = true) (hd : s.dataFile = some file)
    (hlen : file.length = s.meta.active_entries)
    (hc : min c s.meta.active_entries ≠ 0)
    (hr : s.meta.active_entries - min c s.meta.active_entries ≠ 0) :
    flash_mgr_delete ioAll s c =
      save_metadata { s with
        dataFile := some (file.drop (min c s.meta.active_entries)),
        tempFile := none,
        meta := { s.meta with
          active_entries :=
            s.meta.active_entries - min c s.meta.active_entries,
          deleted_from_start :=
            s.meta.deleted_from_start + min c s.meta.active_entries } } := by
  have hlen2 : (file.drop (min c s.meta.active_entries)).length
      = s.meta.active_entries - min c s.meta.active_entries := by
    simp [List.length_drop, hlen]
  have hnotlt : ¬ ((file.drop (min c s.meta.active_entries)).length <
      s.meta.active_entries - min c s.meta.active_entries) := by omega
  have htake : (file.drop (min c s.meta.active_entries)).take
      (s.meta.active_entries - min c s.meta.active_entries)
      = file.drop (min c s.meta.active_entries) :=
    List.take_of_length_le (le_of_eq hlen2)
  simp [flash_mgr_delete, h1, hc, hr, hd, ioAll, hnotlt, htake]
  intro hlt
  exfalso
  omega

theorem inv_delete (s : flash_mgr_state_t) (c : Nat) (h : Inv s) :
    Inv (flash_mgr_delete ioAll s c).2 := by
  obtain ⟨h1, h2, h3, h4, h5, h6, h7, h8⟩ := h
  by_cases hc : min c s.meta.active_entries = 0
  · rw [delete_noop ioAll s c h1 hc]
    exact ⟨h1, h2, h3, h4, h5, h6, h7, h8⟩
  · have hmle : min c s.meta.active_entries ≤ s.meta.active_entries :=
      Nat.min_le_right c s.meta.active_entries
    simp only [fileList] at h4 h6 h7 h8
    by_cases hr : s.meta.active_entries - min c s.meta.active_entries = 0
    · rw [delete_full ioAll s c h1 hc hr, inv_save]
      unfold Inv
      refine ⟨h1, h2, ?_, ?_, ?_, ?_, ?_, ?_⟩ <;>
        simp only [fileList, ioAll] <;>
        simp [List.drop_length]
      omega
    · have hlen0 : (s.dataFile.getD []).length ≠ 0 := by omega
      have hd : s.dataFile = some (fileList s) :=
        dataFile_eq_some s (by simpa [fileList] using hlen0)
      rw [delete_compaction s c (fileList s) h1 hd h4 hc hr, inv_save]
      unfold Inv
      refine ⟨h1, rfl, ?_, ?_, ?_, ?_, ?_, ?_⟩ <;>
        simp only [fileList, Option.getD_some]
      · omega
      · simp only [List.length_drop]
        omega
      · omega
      · rw [h6, List.drop_drop]
        congr 1
        omega
      · intro e he
        exact h7 e (List.mem_of_mem_drop he)
      · exact List.Pairwise.sublist (List.drop_sublist _ _) h8

theorem inv_autoCleanup (s : flash_mgr_state_t) (oracle : Option Nat)
    (h : Inv s) : Inv (autoCleanupStep s oracle) := by
  unfold autoCleanupStep
  split
  · cases oracle with
    | none => exact h
    | some target =>
      simp only
      split
      · exact h
      · exact inv_delete s _ h
  · exact h

theorem inv_append (s : flash_mgr_state_t) (oracle : Option Nat)
    (t ty un : Nat) (v : Int) (h : Inv s) :
    Inv (flash_mgr_append_with_timestamp ⟨true, true⟩ oracle s t ty un v).2 := by
  obtain ⟨h1, h2, h3, h4, h5, h6, h7, h8⟩ := h
  simp only [fileList] at h4 h6 h7 h8
  unfold flash_mgr_append_with_timestamp
  simp only [h1, Bool.true_eq_false, if_false, reduceCtorEq, ite_false]
  rw [inv_save]
  apply inv_autoCleanup
  unfold Inv
  refine ⟨rfl, h2, ?_, ?_, ?_, ?_, ?_, ?_⟩ <;>
    simp only [fileList, Option.getD_some]
  · omega
  · simp only [List.length_append, List.length_cons, List.length_nil]
    omega
  · simp only [List.length_append, List.length_cons, List.length_nil]
    omega
  · simp only [List.length_append, List.length_cons, List.length_nil]
    rw [show s.history.length + (0 + 1) - (s.meta.active_entries + 1)
        = s.history.length - s.meta.active_entries by omega]
    rw [List.drop_append_of_le_length (by omega)]
    rw [← h6]
  · intro e he
    simp only [List.mem_append, List.mem_singleton] at he
    rcases he with he | he
    · exact Nat.lt_succ_of_lt (h7 e he)
    · subst he
      exact Nat.lt_succ_self _
  · rw [List.pairwise_append]
    refine ⟨h8, List.pairwise_singleton _ _, ?_⟩
    intro a ha b hb
    simp only [List.mem_singleton] at hb
    subst hb
    exact h7 a ha

theorem inv_cleanup (s : flash_mgr_state_t) (t : Nat) (h : Inv s) :
    Inv (flash_mgr_cleanup ioAll s t).2 := by
  unfold flash_mgr_cleanup
  rw [h.1]
  simp only [Bool.true_eq_false, if_false, reduceCtorEq, ite_false]
  split
  · exact h
  · exact inv_delete s _ h

theorem inv_format (s : flash_mgr_state_t) (h : Inv s) :
    Inv (flash_mgr_format s).2 := by
  unfold flash_mgr_format
  rw [h.1]
  simp only [Bool.true_eq_false, if_false, reduceCtorEq, ite_false]
  rw [inv_save]
  unfold Inv
  refine ⟨rfl, h.2.1, ?_, ?_, ?_, ?_, ?_, ?_⟩ <;>
    simp [fileList, freshMeta, List.drop_length]

theorem inv_step (s : flash_mgr_state_t) (op : Op) (h : Inv s) :
    Inv (step s op) := by
  cases op with
  | reinit => exact h
  | append t ty un v oracle => exact inv_append s oracle t ty un v h
  | evict c => exact inv_delete s c h
  | cleanup t => exact inv_cleanup s t h
  | format => exact inv_format s h

theorem inv_foldl : ∀ (ops : List Op) (s : flash_mgr_state_t),
    Inv s → Inv (ops.foldl step s)
  | [], _, h => h
  | op :: ops, s, h => inv_foldl ops (step s op) (inv_step s op h)

theorem inv_initState (cfg : flash_mgr_config_t) : Inv (initState cfg) := by
  refine ⟨rfl, rfl, rfl, rfl, ?_, ?_, ?_, ?_⟩ <;>
    simp [initState, fileList, freshMeta]

theorem inv_run (cfg : flash_mgr_config_t) (ops : List Op) :
    Inv (run cfg ops) :=
  inv_foldl ops (initState cfg) (inv_initState cfg)

theorem get_status_active (s : flash_mgr_state_t) (h1 : s.initialized = true) :
    (flash_mgr_get_status s).2.active_entries = s.meta.active_entries := by
  simp [flash_mgr_get_status, h1]

theorem read_chunk_take (s : flash_mgr_state_t) (h : Inv s) (limit : Nat) :
    (flash_mgr_read_chunk s limit).2
      = (fileList s).take (min limit s.meta.active_entries) ∧
    (flash_mgr_read_chunk s limit).1 = .ESP_OK := by
  obtain ⟨h1, _, _, h4, _, _, _, _⟩ := h
  unfold flash_mgr_read_chunk
  rw [h1]
  simp only [Bool.true_eq_false, if_false, reduceCtorEq, ite_false]
  by_cases h0 : s.meta.active_entries = 0
  · simp [h0]
  · have hd : s.dataFile = some (fileList s) := dataFile_eq_some s (by omega)
    simp [h0, hd]

theorem step_append_simple (s : flash_mgr_state_t) (h1 : s.initialized = true)
    (h2 : s.config.auto_cleanup = false) :
    (step s (Op.append 0 0 0 0 none)).meta.active_entries
      = s.meta.active_entries + 1 ∧
    (step s (Op.append 0 0 0 0 none)).initialized = true ∧
    (step s (Op.append 0 0 0 0 none)).config = s.config := by
  simp [step, flash_mgr_append_with_timestamp, h1, autoCleanupStep, h2,
    save_metadata]

theorem run_append_n : ∀ (n : Nat) (s : flash_mgr_state_t),
    s.initialized = true → s.config.auto_cleanup = false →
    ((List.replicate n (Op.append 0 0 0 0 none)).foldl step s).meta.active_entries
        = s.meta.active_entries + n ∧
    ((List.replicate n (Op.append 0 0 0 0 none)).foldl step s).initialized
        = true ∧
    ((List.replicate n (Op.append 0 0 0 0 none)).foldl step s).config
        = s.config := by
  intro n
  induction n with
  | zero =>
    intro s h1 h2
    exact ⟨by simp, h1, rfl⟩
  | succ n ih =>
    intro s h1 h2
    rw [List.replicate_succ, List.foldl_cons]
    obtain ⟨ha, hi, hc⟩ := step_append_simple s h1 h2
    obtain ⟨ha2, hi2, hc2⟩ :=
      ih (step s (Op.append 0 0 0 0 none)) hi (by rw [hc]; exact h2)
    refine ⟨?_, hi2, by rw [hc2, hc]⟩
    rw [ha2, ha]
    omega

/-- Claim C1 (confirmed): in every state reachable by any sequence of
    init/append/evict/cleanup/format operations from a fresh ledger,
    total_entries = active_entries + deleted_from_start, active_entries
    equals the number of whole records present in the log file, and
    status().active_entries equals the number of records read_chunk
    returns with an unbounded limit. -/
theorem c1_ledger_invariant (cfg : flash_mgr_config_t) (ops : List Op) :
    (run cfg ops).meta.total_entries
      = (run cfg ops).meta.active_entries
        + (run cfg ops).meta.deleted_from_start ∧
    (fileList (run cfg ops)).length = (run cfg ops).meta.active_entries ∧
    ∀ limit, (run cfg ops).meta.active_entries ≤ limit →
      (flash_mgr_read_chunk (run cfg ops) limit).2.length
        = (flash_mgr_get_status (run cfg ops)).2.active_entries := by
  obtain ⟨h1, h2, h3, h4, h5, h6, h7, h8⟩ := inv_run cfg ops
  refine ⟨h3, h4, ?_⟩
  intro limit hl
  rw [get_status_active _ h1]
  obtain ⟨hchunk, -⟩ := read_chunk_take _ (inv_run cfg ops) limit
  rw [hchunk, List.length_take]
  omega

/-- Witness for C1 at a concrete operation sequence and limit. -/
theorem c1_witness :
    (flash_mgr_read_chunk (run cfg0 opsW) 10).2.length
      = (flash_mgr_get_status (run cfg0 opsW)).2.active_entries :=
  (c1_ledger_invariant cfg0 opsW).2.2 10 (by decide)

/-- Claim C2 (confirmed): for every count with 0 < count <= active_entries,
    a successful evict(count) via flash_mgr_delete decreases
    active_entries by exactly count and increases deleted_from_start by
    exactly count; in the full-clear case count = active_entries the log
    file is removed entirely and active_entries becomes 0. -/
theorem c2_evict_postcondition (s : flash_mgr_state_t) (c : Nat) (h : Inv s)
    (hc0 : 0 < c) (hcle : c ≤ s.meta.active_entries) :
    (flash_mgr_delete ioAll s c).1 = .ESP_OK ∧
    (flash_mgr_delete ioAll s c).2.meta.active_entries
      = s.meta.active_entries - c ∧
    (flash_mgr_delete ioAll s c).2.meta.deleted_from_start
      = s.meta.deleted_from_start + c ∧
    (c = s.meta.active_entries →
      (flash_mgr_delete ioAll s c).2.dataFile = none) := by
  obtain ⟨h1, h2, h3, h4, h5, h6, h7, h8⟩ := h
  have hmin : min c s.meta.active_entries = c := Nat.min_eq_left hcle
  by_cases hca : c = s.meta.active_entries
  · rw [delete_full ioAll s c h1 (by omega) (by omega)]
    refine ⟨rfl, ?_, ?_, ?_⟩
    · simp [save_metadata]
      omega
    · simp [save_metadata, hmin]
    · intro _
      simp [save_metadata, ioAll]
  · have hr : s.meta.active_entries - min c s.meta.active_entries ≠ 0 := by
      omega
    have hlen0 : (fileList s).length ≠ 0 := by omega
    have hd : s.dataFile = some (fileList s) := dataFile_eq_some s hlen0
    rw [delete_compaction s c (fileList s) h1 hd h4 (by omega) hr]
    refine ⟨rfl, ?_, ?_, ?_⟩
    · simp [save_metadata, hmin]
    · simp [save_metadata, hmin]
    · intro hceq
      exact absurd hceq hca

/-- Witness for C2: evicting one of the two records of a concrete
    state. -/
theorem c2_witness :
    (flash_mgr_delete ioAll exampleS2 1).1 = .ESP_OK ∧
    (flash_mgr_delete ioAll exampleS2 1).2.meta.active_entries
      = exampleS2.meta.active_entries - 1 ∧
    (flash_mgr_delete ioAll exampleS2 1).2.meta.deleted_from_start
      = exampleS2.meta.deleted_from_start + 1 ∧
    (1 = exampleS2.meta.active_entries →
      (flash_mgr_delete ioAll exampleS2 1).2.dataFile = none) :=
  c2_evict_postcondition exampleS2 1 (by decide) (by decide) (by decide)

/-- Counterexample to claim C3 as stated: a failed append does NOT leave
    the prior engine state unchanged — next_id is incremented (burned)
    even though the open failed and ESP_FAIL is returned. -/
theorem c3_counterexample :
    (flash_mgr_append_with_timestamp ⟨false, true⟩ none (initState cfg0)
      0 0 0 0).1 = .ESP_FAIL ∧
    (flash_mgr_append_with_timestamp ⟨false, true⟩ none (initState cfg0)
      0 0 0 0).2 ≠ initState cfg0 ∧
    (flash_mgr_append_with_timestamp ⟨false, true⟩ none (initState cfg0)
      0 0 0 0).2.meta.next_id = (initState cfg0).meta.next_id + 1 := by
  decide

/-- Claim C3 (corrected): if append fails because the data file cannot
    be opened or the record write is short, the error is surfaced and
    total_entries, active_entries, deleted_from_start, the data file,
    the ledger file and the append history are all unchanged — but
    next_id has been incremented by one (the id is burned), because the
    source post-increments next_id while building the entry, before any
    I/O. -/
theorem c3_append_failure (io : append_io_t) (oracle : Option Nat)
    (s : flash_mgr_state_t) (t ty un : Nat) (v : Int)
    (h1 : s.initialized = true)
    (hfail : io.openOk = false ∨ io.writeOk = false) :
    (flash_mgr_append_with_timestamp io oracle s t ty un v).1 = .ESP_FAIL ∧
    (flash_mgr_append_with_timestamp io oracle s t ty un v).2.meta.total_entries
      = s.meta.total_entries ∧
    (flash_mgr_append_with_timestamp io oracle s t ty un v).2.meta.active_entries
      = s.meta.active_entries ∧
    (flash_mgr_append_with_timestamp io oracle s t ty un v).2.meta.deleted_from_start
      = s.meta.deleted_from_start ∧
    (flash_mgr_append_with_timestamp io oracle s t ty un v).2.dataFile
      = s.dataFile ∧
    (flash_mgr_append_with_timestamp io oracle s t ty un v).2.metaFile
      = s.metaFile ∧
    (flash_mgr_append_with_timestamp io oracle s t ty un v).2.saves
      = s.saves ∧
    (flash_mgr_append_with_timestamp io oracle s t ty un v).2.history
      = s.history ∧
    (flash_mgr_append_with_timestamp io oracle s t ty un v).2.meta.next_id
      = s.meta.next_id + 1 := by
  obtain ⟨o, w⟩ := io
  rcases hfail with hf | hf
  all_goals simp only [] at hf
  all_goals subst hf
  · simp [flash_mgr_append_with_timestamp, h1]
  · cases o
    · simp [flash_mgr_append_with_timestamp, h1]
    · simp [flash_mgr_append_with_timestamp, h1]

/-- Witness for C3 (amended) at a concrete failing append. -/
theorem c3_witness :
    (flash_mgr_append_with_timestamp ⟨false, true⟩ none exampleS2
      5 1 2 7).1 = .ESP_FAIL ∧
    (flash_mgr_append_with_timestamp ⟨false, true⟩ none exampleS2
      5 1 2 7).2.meta.total_entries = exampleS2.meta.total_entries ∧
    (flash_mgr_append_with_timestamp ⟨false, true⟩ none exampleS2
      5 1 2 7).2.meta.active_entries = exampleS2.meta.active_entries ∧
    (flash_mgr_append_with_timestamp ⟨false, true⟩ none exampleS2
      5 1 2 7).2.meta.deleted_from_start
      = exampleS2.meta.deleted_from_start ∧
    (flash_mgr_append_with_timestamp ⟨false, true⟩ none exampleS2
      5 1 2 7).2.dataFile = exampleS2.dataFile ∧
    (flash_mgr_append_with_timestamp ⟨false, true⟩ none exampleS2
      5 1 2 7).2.metaFile = exampleS2.metaFile ∧
    (flash_mgr_append_with_timestamp ⟨false, true⟩ none exampleS2
      5 1 2 7).2.saves = exampleS2.saves ∧
    (flash_mgr_append_with_timestamp ⟨false, true⟩ none exampleS2
      5 1 2 7).2.history = exampleS2.history ∧
    (flash_mgr_append_with_timestamp ⟨false, true⟩ none exampleS2
      5 1 2 7).2.meta.next_id = exampleS2.meta.next_id + 1 :=
  c3_append_failure ⟨false, true⟩ none exampleS2 5 1 2 7 rfl (Or.inl rfl)

/-- Counterexample to claim C4 as stated: on a rename failure during
    compaction the operation does return failure, but the original log
    file has already been removed and the temporary file is NOT
    discarded. -/
theorem c4_counterexample :
    (flash_mgr_delete ⟨true, true, true, false⟩ exampleS2 1).1
      = .ESP_FAIL ∧
    (flash_mgr_delete ⟨true, true, true, false⟩ exampleS2 1).2.dataFile
      = none ∧
    exampleS2.dataFile ≠ none ∧
    (flash_mgr_delete ⟨true, true, true, false⟩ exampleS2 1).2.tempFile
      = some [e1] := by
  decide

/-- Claim C4 (corrected): for a partial evict (0 < count <
    active_entries), a failure of the seek, of the chunked copy, or of
    the removal of the original file returns ESP_FAIL, discards the
    temporary file, and leaves the original log file and the ledger
    counters untouched (safe to retry); a failure of the final rename
    also returns ESP_FAIL with the ledger counters untouched, but at
    that point the original log file has already been removed and the
    surviving records remain only in the temporary file, which is not
    discarded. -/
theorem c4_compaction_failure (s : flash_mgr_state_t) (c : Nat)
    (io : delete_io_t) (h1 : s.initialized = true)
    (hc0 : 0 < c) (hca : c < s.meta.active_entries)
    (htmp : s.tempFile = none)
    (hlen : (fileList s).length = s.meta.active_entries) :
    (io.seekOk = false → flash_mgr_delete io s c = (.ESP_FAIL, s)) ∧
    (io.seekOk = true → io.copyOk = false →
      flash_mgr_delete io s c = (.ESP_FAIL, s)) ∧
    (io.seekOk = true → io.copyOk = true → io.removeOk = false →
      flash_mgr_delete io s c = (.ESP_FAIL, s)) ∧
    (io.seekOk = true → io.copyOk = true → io.removeOk = true →
      io.renameOk = false →
      flash_mgr_delete io s c =
        (.ESP_FAIL,
          { s with
            dataFile := none,
            tempFile := some ((fileList s).drop c) })) := by
  obtain ⟨cf, m, i, d, tf, mf, hist, sv⟩ := s
  simp only [fileList] at hlen ⊢
  simp only at h1 htmp hca
  subst h1
  subst htmp
  cases d with
  | none =>
    exfalso
    simp only [Option.getD_none, List.length_nil] at hlen
    omega
  | some file =>
    simp only [Option.getD_some] at hlen ⊢
    have hmin : min c m.active_entries = c := Nat.min_eq_left (le_of_lt hca)
    have hcne : ¬ (c = 0) := by omega
    have hrne : ¬ (m.active_entries - c = 0) := by omega
    have hlen2 : (file.drop c).length = m.active_entries - c := by
      rw [List.length_drop, hlen]
    have hnlt : ¬ ((file.drop c).length < m.active_entries - c) := by omega
    have htake : (file.drop c).take (m.active_entries - c) = file.drop c :=
      List.take_of_length_le (le_of_eq hlen2)
    refine ⟨?_, ?_, ?_, ?_⟩
    · intro hsk
      simp [flash_mgr_delete, hmin, hcne, hrne, hsk]
    · intro hsk hcp
      simp [flash_mgr_delete, hmin, hcne, hrne, hsk, hcp]
    · intro hsk hcp hrm
      simp [flash_mgr_delete, hmin, hcne, hrne, hsk, hcp, hrm, hnlt]
    · intro hsk hcp hrm hrn
      simp [flash_mgr_delete, hmin, hcne, hrne, hsk, hcp, hrm, hrn, hnlt,
        htake]
      omega

/-- Witness for C4 (amended) at a concrete seek failure. -/
theorem c4_witness :
    flash_mgr_delete ⟨false, true, true, true⟩ exampleS2 1
      = (.ESP_FAIL, exampleS2) :=
  (c4_compaction_failure exampleS2 1 ⟨false, true, true, true⟩ rfl
    (by decide) (by decide) rfl (by decide)).1 rfl

/-- Counterexample to claim C6 as stated: read_chunk on an uninitialized
    engine fails with ESP_ERR_INVALID_ARG, which is a different error
    kind from ESP_ERR_INVALID_STATE. -/
theorem c6_counterexample :
    (flash_mgr_read_chunk uninitState0 1).1 = .ESP_ERR_INVALID_ARG ∧
    (flash_mgr_read_chunk uninitState0 1).1 ≠ .ESP_ERR_INVALID_STATE := by
  decide

/-- Claim C6 (corrected): every facade operation invoked while
    Uninitialized fails without side effects; append, evict, status,
    cleanup and format fail with ESP_ERR_INVALID_STATE, but read_chunk
    fails with ESP_ERR_INVALID_ARG (its null-pointer/uninitialized
    checks share one error code). -/
theorem c6_uninit_rejection (s : flash_mgr_state_t)
    (h : s.initialized = false) :
    (∀ io oracle t ty un v,
      flash_mgr_append_with_timestamp io oracle s t ty un v
        = (.ESP_ERR_INVALID_STATE, s)) ∧
    (∀ io c, flash_mgr_delete io s c = (.ESP_ERR_INVALID_STATE, s)) ∧
    flash_mgr_get_status s = (.ESP_ERR_INVALID_STATE, emptyStatus) ∧
    (∀ io t, flash_mgr_cleanup io s t = (.ESP_ERR_INVALID_STATE, s)) ∧
    flash_mgr_format s = (.ESP_ERR_INVALID_STATE, s) ∧
    (∀ m, flash_mgr_read_chunk s m = (.ESP_ERR_INVALID_ARG, [])) := by
  refine ⟨?_, ?_, ?_, ?_, ?_, ?_⟩ <;>
    intros <;>
    simp [flash_mgr_append_with_timestamp, flash_mgr_delete,
      flash_mgr_get_status, flash_mgr_cleanup, flash_mgr_format,
      flash_mgr_read_chunk, h]

/-- Witness for C6 (amended) at a concrete uninitialized state. -/
theorem c6_witness :
    flash_mgr_format uninitState0 = (.ESP_ERR_INVALID_STATE, uninitState0) ∧
    (∀ m, flash_mgr_read_chunk uninitState0 m
      = (.ESP_ERR_INVALID_ARG, [])) :=
  ⟨(c6_uninit_rejection uninitState0 rfl).2.2.2.2.1,
   (c6_uninit_rejection uninitState0 rfl).2.2.2.2.2⟩

/-- Claim C7 (confirmed): evict(count) with count > active_entries is
    clamped to active_entries and succeeds; evict(0) and
    cleanup(target) with target >= active_entries are exact no-ops that
    return ESP_OK and do not alter the ledger — the state (including
    the ghost save counter, hence no ledger save) is untouched. -/
theorem c7_boundary (s : flash_mgr_state_t) (h1 : s.initialized = true) :
    (∀ c, s.meta.active_entries < c →
      flash_mgr_delete ioAll s c
        = flash_mgr_delete ioAll s s.meta.active_entries ∧
      (flash_mgr_delete ioAll s c).1 = .ESP_OK) ∧
    flash_mgr_delete ioAll s 0 = (.ESP_OK, s) ∧
    (∀ t, s.meta.active_entries ≤ t →
      flash_mgr_cleanup ioAll s t = (.ESP_OK, s)) := by
  refine ⟨?_, ?_, ?_⟩
  · intro c hclt
    have hmin1 : min c s.meta.active_entries = s.meta.active_entries := by
      omega
    have hmin2 : min s.meta.active_entries s.meta.active_entries
        = s.meta.active_entries := by omega
    constructor
    · unfold flash_mgr_delete
      simp only [hmin1, hmin2]
    · by_cases h0 : s.meta.active_entries = 0
      · rw [delete_noop ioAll s c h1 (by omega)]
      · rw [delete_full ioAll s c h1 (by omega) (by omega)]
        rfl
  · exact delete_noop ioAll s 0 h1 (by simp)
  · intro t ht
    unfold flash_mgr_cleanup
    rw [h1]
    simp [ht]

/-- Witness for C7 at a concrete state: no-op evict(0), no-op cleanup,
    and a clamped oversized evict succeeding. -/
theorem c7_witness :
    flash_mgr_delete ioAll exampleS2 0 = (.ESP_OK, exampleS2) ∧
    flash_mgr_cleanup ioAll exampleS2 5 = (.ESP_OK, exampleS2) ∧
    (flash_mgr_delete ioAll exampleS2 99).1 = .ESP_OK :=
  ⟨(c7_boundary exampleS2 rfl).2.1,
   (c7_boundary exampleS2 rfl).2.2 5 (by decide),
   ((c7_boundary exampleS2 rfl).1 99 (by decide)).2⟩

/-- Claim C8 (confirmed): for every operation sequence from a fresh
    engine and every limit, read_chunk returns records oldest-first
    with strictly increasing (hence non-decreasing) ids, and the result
    is a contiguous slice of the append history (eviction only removes
    a prefix). -/
theorem c8_order_preservation (cfg : flash_mgr_config_t) (ops : List Op)
    (limit : Nat) :
    ((flash_mgr_read_chunk (run cfg ops) limit).2.map
      flash_mgr_entry_t.id).Pairwise (· < ·) ∧
    ((flash_mgr_read_chunk (run cfg ops) limit).2.map
      flash_mgr_entry_t.id).Pairwise (· ≤ ·) ∧
    ∃ k, (flash_mgr_read_chunk (run cfg ops) limit).2
        = ((run cfg ops).history.drop k).take limit := by
  obtain ⟨h1, h2, h3, h4, h5, h6, h7, h8⟩ := inv_run cfg ops
  obtain ⟨hchunk, -⟩ := read_chunk_take _ (inv_run cfg ops) limit
  have hsub : List.Sublist (flash_mgr_read_chunk (run cfg ops) limit).2
      (fileList (run cfg ops)) := by
    rw [hchunk]
    exact List.take_sublist _ _
  have hp : ((flash_mgr_read_chunk (run cfg ops) limit).2).Pairwise
      (fun a b => a.id < b.id) := List.Pairwise.sublist hsub h8
  have hmap : (((flash_mgr_read_chunk (run cfg ops) limit).2).map
      flash_mgr_entry_t.id).Pairwise (· < ·) :=
    List.Pairwise.map _ (fun _ _ hab => hab) hp
  refine ⟨hmap, hmap.imp (fun hab => le_of_lt hab), ?_⟩
  refine ⟨(run cfg ops).history.length - (run cfg ops).meta.active_entries, ?_⟩
  rw [hchunk, h6]
  have hlendrop : ((run cfg ops).history.drop
      ((run cfg ops).history.length
        - (run cfg ops).meta.active_entries)).length
      = (run cfg ops).meta.active_entries := by
    rw [List.length_drop]
    omega
  rcases Nat.le_total limit (run cfg ops).meta.active_entries with hle | hle
  · rw [Nat.min_eq_left hle]
  · rw [Nat.min_eq_right hle, List.take_of_length_le (le_of_eq hlendrop),
      List.take_of_length_le (by omega)]

/-- Claim C9 (confirmed): for every ledger-file state that is absent, or
    present with a magic field different from the sentinel,
    load_metadata succeeds and yields the zeroed ledger with magic set
    to the sentinel — a silent reset, never an error. -/
theorem c9_load_resilience (mf : Option meta_file_t)
    (h : mf = none ∨ ∃ m, mf = some (.valid m) ∧
      m.magic ≠ FLASH_MGR_METADATA_MAGIC) :
    load_metadata mf = (.ESP_OK, some freshMeta) ∧
    freshMeta.total_entries = 0 ∧ freshMeta.active_entries = 0 ∧
    freshMeta.next_id = 0 ∧ freshMeta.deleted_from_start = 0 ∧
    freshMeta.magic = FLASH_MGR_METADATA_MAGIC := by
  rcases h with h | ⟨m, hm, hmagic⟩
  · subst h
    exact ⟨rfl, rfl, rfl, rfl, rfl, rfl⟩
  · subst hm
    refine ⟨?_, rfl, rfl, rfl, rfl, rfl⟩
    simp [load_metadata, hmagic]

/-- Witness for C9 at a concrete wrong-magic ledger file. -/
theorem c9_witness :
    load_metadata (some (meta_file_t.valid ⟨1, 2, 3, 4, 0⟩))
      = (.ESP_OK, some freshMeta) :=
  (c9_load_resilience (some (meta_file_t.valid ⟨1, 2, 3, 4, 0⟩))
    (Or.inr ⟨⟨1, 2, 3, 4, 0⟩, rfl, by decide⟩)).1

/-- Claim C10 (confirmed): flash_mgr_get_status computes
    free_space_bytes as the unsigned 32-bit difference max_data_size -
    active_entries * sizeof(entry); when appends continue past capacity
    with auto_cleanup disabled (reachable: n appends give active = n),
    the used byte count exceeds max_data_size and free_space_bytes
    wraps modulo 2^32 to U32 - (used - max), a huge value above
    max_data_size, instead of clamping to zero. -/
theorem c10_free_space_wrap (maxSize n : Nat)
    (hover : maxSize < n * entrySize) (hlt : n * entrySize < U32) :
    (flash_mgr_get_status
      (run ⟨maxSize, 4096, false⟩
        (List.replicate n (Op.append 0 0 0 0 none)))).2.free_space_bytes
      = U32 - (n * entrySize - maxSize) ∧
    maxSize <
      (flash_mgr_get_status
        (run ⟨maxSize, 4096, false⟩
          (List.replicate n (Op.append 0 0 0 0 none)))).2.free_space_bytes := by
  obtain ⟨ha, hi, hc⟩ :=
    run_append_n n (initState ⟨maxSize, 4096, false⟩) rfl rfl
  have ha2 : (run ⟨maxSize, 4096, false⟩
      (List.replicate n (Op.append 0 0 0 0 none))).meta.active_entries
      = n := by
    have h0 : (initState ⟨maxSize, 4096, false⟩).meta.active_entries = 0 := rfl
    rw [run]
    rw [ha, h0]
    omega
  have hi2 : (run ⟨maxSize, 4096, false⟩
      (List.replicate n (Op.append 0 0 0 0 none))).initialized = true := hi
  have hc2 : (run ⟨maxSize, 4096, false⟩
      (List.replicate n (Op.append 0 0 0 0 none))).config
      = ⟨maxSize, 4096, false⟩ := hc
  simp only [flash_mgr_get_status, hi2, Bool.true_eq_false, reduceCtorEq,
    ite_false, if_false]
  simp only [ha2, hc2]
  simp only [entrySize, U32] at hover hlt ⊢
  omega

/-- Witness for C10: capacity 1024 bytes, 65 appends, used = 1040 bytes,
    free_space_bytes wraps to 2^32 - 16. -/
theorem c10_witness :
    (flash_mgr_get_status
      (run ⟨1024, 4096, false⟩
        (List.replicate 65 (Op.append 0 0 0 0 none)))).2.free_space_bytes
      = U32 - (65 * entrySize - 1024) ∧
    1024 <
      (flash_mgr_get_status
        (run ⟨1024, 4096, false⟩
          (List.replicate 65 (Op.append 0 0 0 0 none)))).2.free_space_bytes :=
  c10_free_space_wrap 1024 65 (by decide) (by decide)

end GGFlashMgr
